import Mathlib

/-!
Shallow embedding of the querycsv repository (gleanClientAPI.py,
gleanConstants.py, querycsv.py): the JSON response parsing functions, the
chat API client wrapper `getAnswer`, and the CSV batch driver
`process_questions`, together with theorems about them.

Python-level conventions used throughout:
* `json.loads` results are modelled by the inductive type `Json`; a body that
  fails to decode is modelled as `Option Json = none`.
* Python statements that can raise are modelled in the `Except PyErr` monad;
  the `try/except` wrapper of each parse function catches every error and
  returns `none`, exactly as in the source.
* Python truthiness of strings/lists (`if x:`) is modelled explicitly where
  the source relies on it.
-/

/-- JSON values as produced by `json.loads`. Objects keep their member list;
duplicate keys resolve to the last binding, as in Python's dict building. -/
inductive Json where
  | null
  | bool (b : Bool)
  | num (n : Int)
  | str (s : String)
  | arr (items : List Json)
  | obj (members : List (String × Json))

/-- Python runtime errors relevant to the embedded code. -/
inductive PyErr where
  | typeError
  | keyError

/-- Whether `needle` is a leading run of `hay` (on character lists). -/
def prefixMatch : List Char → List Char → Bool
  | [], _ => true
  | _ :: _, [] => false
  | a :: as, b :: bs => a == b && prefixMatch as bs

/-- Whether `needle` occurs contiguously anywhere in `hay`. -/
def subMatch (needle : List Char) : List Char → Bool
  | [] => prefixMatch needle []
  | b :: bs => prefixMatch needle (b :: bs) || subMatch needle bs

/-- Python `needle in hay` for two strings: substring containment. -/
def strContainsSub (hay needle : String) : Bool :=
  subMatch needle.data hay.data

/-- Python dict lookup semantics: the last binding of a key wins. -/
def lookupLast (ms : List (String × Json)) (k : String) : Option Json :=
  ms.foldl (fun acc kv => if kv.1 == k then some kv.2 else acc) none

/-- Python's `k in v` for a string `k`: key membership for dicts, substring
test for strings, element equality for lists, `TypeError` otherwise. -/
def pyContains : Json → String → Except PyErr Bool
  | .obj ms, k => .ok (ms.any (fun kv => kv.1 == k))
  | .str s, k => .ok (strContainsSub s k)
  | .arr xs, k => .ok (xs.any (fun x => match x with | .str t => t == k | _ => false))
  | _, _ => .error .typeError

/-- Python's `v[k]` for a string key `k`: dict lookup (`KeyError` when the key
is absent), `TypeError` on every non-dict value. -/
def Json.subscript (j : Json) (k : String) : Except PyErr Json :=
  match j with
  | .obj ms =>
    match lookupLast ms k with
    | some v => .ok v
    | none => .error .keyError
  | _ => .error .typeError

/-- Python's `for x in v`: lists yield their items, strings their characters,
dicts their keys; other values raise `TypeError`. -/
def pyIter : Json → Except PyErr (List Json)
  | .arr xs => .ok xs
  | .str s => .ok (s.data.map (fun c => .str (String.mk [c])))
  | .obj ms => .ok (ms.map (fun kv => .str kv.1))
  | _ => .error .typeError

/-! ### parseAnswer (gleanClientAPI.py lines 147-171) -/

/-- Body of the inner fragment loop of `parseAnswer`: if the fragment carries
a `text` key, the running answer becomes that value. -/
def answerScanFragment (answer : Option Json) (fragment : Json) :
    Except PyErr (Option Json) := do
  let hasText ← pyContains fragment "text"
  if hasText then
    let t ← fragment.subscript "text"
    pure (some t)
  else
    pure answer

/-- Body of the message loop of `parseAnswer`: scan the message's fragments
when a `fragments` key is present. -/
def answerScanMessage (answer : Option Json) (message : Json) :
    Except PyErr (Option Json) := do
  let hasFrags ← pyContains message "fragments"
  if hasFrags then
    let fragsVal ← message.subscript "fragments"
    let frags ← pyIter fragsVal
    frags.foldlM answerScanFragment answer
  else
    pure answer

/-- The `try` body of `parseAnswer` over the decoded response object. -/
def parseAnswerBody (responseObj : Json) : Except PyErr (Option Json) := do
  let hasMsgs ← pyContains responseObj "messages"
  if hasMsgs then
    let msgsVal ← responseObj.subscript "messages"
    let msgs ← pyIter msgsVal
    msgs.foldlM answerScanMessage none
  else
    pure none

/-- `parseAnswer`: `none` models both a `json.loads` failure and any caught
exception, mirroring the `except` clause returning `None`. -/
def parseAnswer (decoded : Option Json) : Option Json :=
  match decoded with
  | none => none
  | some j =>
    match parseAnswerBody j with
    | .ok a => a
    | .error _ => none

/-! ### parseCitations (gleanClientAPI.py lines 174-199) -/

/-- Body of the citation loop of `parseCitations`: append
`citation['sourceDocument']['url']` when both keys are present. -/
def citationScan (urls : List Json) (citation : Json) :
    Except PyErr (List Json) := do
  let hasSrc ← pyContains citation "sourceDocument"
  if hasSrc then
    let src ← citation.subscript "sourceDocument"
    let hasUrl ← pyContains src "url"
    if hasUrl then
      let src2 ← citation.subscript "sourceDocument"
      let u ← src2.subscript "url"
      pure (urls ++ [u])
    else
      pure urls
  else
    pure urls

/-- Body of the message loop of `parseCitations`. -/
def citationScanMessage (urls : List Json) (message : Json) :
    Except PyErr (List Json) := do
  let hasCits ← pyContains message "citations"
  if hasCits then
    let citsVal ← message.subscript "citations"
    let cits ← pyIter citsVal
    cits.foldlM citationScan urls
  else
    pure urls

/-- The `try` body of `parseCitations` over the decoded response object. -/
def parseCitationsBody (responseObj : Json) : Except PyErr (List Json) := do
  let hasMsgs ← pyContains responseObj "messages"
  if hasMsgs then
    let msgsVal ← responseObj.subscript "messages"
    let msgs ← pyIter msgsVal
    msgs.foldlM citationScanMessage []
  else
    pure []

/-- `parseCitations`: `none` models a decode failure or caught exception. -/
def parseCitations (decoded : Option Json) : Option (List Json) :=
  match decoded with
  | none => none
  | some j =>
    match parseCitationsBody j with
    | .ok v => some v
    | .error _ => none

/-! ### parseResearch (gleanClientAPI.py lines 202-234) -/

/-- The literal marker scanned for by `parseResearch`. -/
def markerText : String := "**Reading:**"

/-- Body of the structured-results loop of `parseResearch`: append
`result['document']['url']` when both keys are present. -/
def resultScan (urls : List Json) (result : Json) :
    Except PyErr (List Json) := do
  let hasDoc ← pyContains result "document"
  if hasDoc then
    let doc ← result.subscript "document"
    let hasUrl ← pyContains doc "url"
    if hasUrl then
      let doc2 ← result.subscript "document"
      let u ← doc2.subscript "url"
      pure (urls ++ [u])
    else
      pure urls
  else
    pure urls

/-- Body of the fragment loop of `parseResearch`: state is the pair
(reading-context flag, accumulated URLs). The flag is set when the fragment's
text contains the marker, and the structured-results check uses the updated
flag in the same iteration. -/
def researchScanFragment (st : Bool × List Json) (fragment : Json) :
    Except PyErr (Bool × List Json) := do
  let hasText ← pyContains fragment "text"
  let reading ←
    if hasText then do
      let t ← fragment.subscript "text"
      let hasMarker ← pyContains t markerText
      pure (st.1 || hasMarker)
    else
      pure st.1
  if reading then
    let hasSR ← pyContains fragment "structuredResults"
    if hasSR then
      let srVal ← fragment.subscript "structuredResults"
      let srs ← pyIter srVal
      let urls ← srs.foldlM resultScan st.2
      pure (reading, urls)
    else
      pure (reading, st.2)
  else
    pure (reading, st.2)

/-- Body of the message loop of `parseResearch`: the reading-context flag is
re-initialized to `false` for each message carrying a `fragments` key. -/
def researchScanMessage (urls : List Json) (message : Json) :
    Except PyErr (List Json) := do
  let hasFrags ← pyContains message "fragments"
  if hasFrags then
    let fragsVal ← message.subscript "fragments"
    let frags ← pyIter fragsVal
    let st ← frags.foldlM researchScanFragment (false, urls)
    pure st.2
  else
    pure urls

/-- The `try` body of `parseResearch` over the decoded response object. -/
def parseResearchBody (responseObj : Json) : Except PyErr (List Json) := do
  let hasMsgs ← pyContains responseObj "messages"
  if hasMsgs then
    let msgsVal ← responseObj.subscript "messages"
    let msgs ← pyIter msgsVal
    msgs.foldlM researchScanMessage []
  else
    pure []

/-- `parseResearch`: `none` models a decode failure or caught exception. -/
def parseResearch (decoded : Option Json) : Option (List Json) :=
  match decoded with
  | none => none
  | some j =>
    match parseResearchBody j with
    | .ok v => some v
    | .error _ => none

/-! ### Structured view of a well-shaped chat response

These record types describe the response shapes the parse functions are
written against; every field the source treats as optional is an `Option`,
so an encoded value can be missing any expected key at any nesting depth.
The encoders below produce the `Json` value such a response decodes to. -/

/-- A source document carrying an optional `url` field. -/
structure SDoc where
  url : Option String

/-- A structured result carrying an optional nested `document`. -/
structure SResult where
  document : Option SDoc

/-- A citation carrying an optional nested `sourceDocument`. -/
structure SCitation where
  sourceDocument : Option SDoc

/-- A content fragment: optional `text`, optional `structuredResults`. -/
structure SFragment where
  text : Option String
  structuredResults : Option (List SResult)

/-- A message: optional `fragments` list, optional `citations` list. -/
structure SMessage where
  fragments : Option (List SFragment)
  citations : Option (List SCitation)

/-- A response body: a `messages` list. -/
structure SResponse where
  messages : List SMessage

def encodeDoc (d : SDoc) : Json :=
  Json.obj (match d.url with
    | some u => [("url", Json.str u)]
    | none => [])

def encodeResult (res : SResult) : Json :=
  Json.obj (match res.document with
    | some d => [("document", encodeDoc d)]
    | none => [])

def encodeCitation (c : SCitation) : Json :=
  Json.obj (match c.sourceDocument with
    | some d => [("sourceDocument", encodeDoc d)]
    | none => [])

def encodeFragment (f : SFragment) : Json :=
  Json.obj ((match f.text with
      | some t => [("text", Json.str t)]
      | none => []) ++
    (match f.structuredResults with
      | some rs => [("structuredResults", Json.arr (rs.map encodeResult))]
      | none => []))

def encodeMessage (m : SMessage) : Json :=
  Json.obj ((match m.fragments with
      | some fs => [("fragments", Json.arr (fs.map encodeFragment))]
      | none => []) ++
    (match m.citations with
      | some cs => [("citations", Json.arr (cs.map encodeCitation))]
      | none => []))

def encodeResp (r : SResponse) : Json :=
  Json.obj [("messages", Json.arr (r.messages.map encodeMessage))]

/-! ### Specification-side characterizations of the three extractions -/

/-- All fragment texts of a response, in original message/fragment order. -/
def allTexts (r : SResponse) : List String :=
  r.messages.flatMap (fun m => (m.fragments.getD []).filterMap SFragment.text)

/-- The claimed answer: the text of the last text-bearing fragment. -/
def lastAnswerText (r : SResponse) : Option String :=
  (allTexts r).getLast?

/-- The URL a citation contributes, when present. -/
def citationUrl (c : SCitation) : Option String :=
  c.sourceDocument.bind SDoc.url

/-- The claimed citation URLs: one per citation with a source-document URL,
in encounter order, duplicates preserved. -/
def citationUrls (r : SResponse) : List String :=
  r.messages.flatMap (fun m => (m.citations.getD []).filterMap citationUrl)

/-- The URL a structured result contributes, when present. -/
def resultUrl (res : SResult) : Option String :=
  res.document.bind SDoc.url

/-- The structured-result URLs a fragment contributes once the reading
context is active. -/
def fragUrls (f : SFragment) : List String :=
  (f.structuredResults.getD []).filterMap resultUrl

/-- Whether a fragment's text contains the reading marker. -/
def isMarkerFrag (f : SFragment) : Bool :=
  match f.text with
  | some t => strContainsSub t markerText
  | none => false

/-- Index of the first marker-bearing fragment, if any. -/
def firstMarker : List SFragment → Option Nat
  | [] => none
  | f :: rest =>
    if isMarkerFrag f then some 0 else (firstMarker rest).map (· + 1)

/-- The claimed research URLs of one message: the structured-result URLs of
the fragments at or after the first marker-bearing fragment (that fragment
included), in order; empty when no fragment text contains the marker. -/
def messageResearchUrls (m : SMessage) : List String :=
  let fs := m.fragments.getD []
  match firstMarker fs with
  | none => []
  | some k => (fs.drop k).flatMap fragUrls

/-- The claimed research URLs of a whole response. -/
def researchUrls (r : SResponse) : List String :=
  r.messages.flatMap messageResearchUrls

/-- Strict-boundary reading of C2: only fragments strictly after the first
marker-bearing fragment contribute. Used to refute that reading. -/
def messageResearchStrict (m : SMessage) : List String :=
  let fs := m.fragments.getD []
  match firstMarker fs with
  | none => []
  | some k => (fs.drop (k + 1)).flatMap fragUrls

/-- One sequential step of the reading-context scan, as a pure function:
the flag becomes true at a marker fragment, and a fragment contributes its
structured-result URLs exactly when the updated flag is true. -/
def scanResearch (flag : Bool) : List SFragment → List String
  | [] => []
  | f :: rest =>
    let flag2 := flag || isMarkerFrag f
    (if flag2 then fragUrls f else []) ++ scanResearch flag2 rest

/-! ### The API client getAnswer (gleanClientAPI.py lines 29-144)

The HTTP exchange itself is environment behavior, supplied as an oracle
`HttpOutcome`: either the `requests.request` call raises (transport fault) or
it completes with a status code, a raw body text, and the `Json` value that
body decodes to (`none` when `json.loads` of the body would raise).
Logging calls are omitted, except for the one logging expression that can
raise: the `json.dumps(json.loads(response.text))` executed under verbose
mode on line 118, outside every `try` block. The Bool paired with the result
records whether the POST on line 101 was executed. -/

/-- A completed HTTP response: status code, raw text, decoded body. -/
structure HttpResp where
  status : Nat
  text : String
  decoded : Option Json

/-- Outcome of the POST: a raised transport exception or a response. -/
inductive HttpOutcome where
  | exn (msg : String)
  | ok (r : HttpResp)

/-- The configuration bits `getAnswer` and the driver consult. -/
structure RunConfig where
  debug : Bool
  verbose : Bool

/-- The question argument as the Python dict it is: key/value pairs. -/
abbrev PyDict : Type := List (String × String)

/-- The structured response dataclass; payload fields hold the raw values the
parse functions produce. -/
structure GleanResponse where
  answer : Option Json := none
  research : Option (List Json) := none
  citations : Option (List Json) := none
  error : Option String := none

/-- The field names `getAnswer` validates (line 47). -/
def requiredFields : List String := ["qid", "question", "answer", "datetime"]

/-- The required fields absent from the question dict (line 48). -/
def missingFields (q : PyDict) : List String :=
  requiredFields.filter (fun f => !(q.any (fun kv => kv.1 == f)))

/-- `getAnswer`: validation, debug short-circuit, POST dispatch, status
check, verbose logging decode, and the three-way parse. `Except.error`
models an uncaught Python exception escaping `getAnswer`. -/
def getAnswer (cfg : RunConfig) (http : HttpOutcome) (q : PyDict) :
    Except String (GleanResponse × Bool) :=
  let missing := missingFields q
  if missing ≠ [] then
    .ok ({ error := some ("Missing required fields: " ++ String.intercalate ", " missing) }, false)
  else if cfg.debug then
    .ok ({}, false)
  else
    match http with
    | .exn m =>
      .ok ({ error := some ("Exception when posting to chat endpoint: " ++ m) }, true)
    | .ok r =>
      if r.status > 200 then
        .ok ({ error := some ("API error - status_code: " ++ toString r.status ++ ", response: " ++ r.text) }, true)
      else if cfg.verbose && r.decoded.isNone then
        .error "json.loads raised inside verbose response logging"
      else
        .ok ({ answer := parseAnswer r.decoded,
               research := parseResearch r.decoded,
               citations := parseCitations r.decoded }, true)

/-! ### The batch driver process_questions (querycsv.py lines 89-144)

Rows are the six-column records `read_csv` produces; every field is a string
(empty when the cell is empty). The client, the wall-clock timestamp and the
measured request duration are oracles indexed by the call position. The
driver is a structural recursion over the remaining rows, carrying the rows
already processed so that each file rewrite can snapshot the full in-memory
row set `done ++ current ++ rest`. Beyond the source's state, the result
records the write snapshots (each call of `write_question_log`) and the
indices at which the client was invoked (each call of `getAnswer`). -/

/-- One CSV row. -/
structure Row where
  qid : String
  question : String
  answer : String
  research : String
  citations : String
  datetime : String
deriving DecidableEq

/-- The client result as the driver consumes it, with the payload types the
`GleanResponse` dataclass declares (`Optional[str]`, `Optional[List[str]]`). -/
structure DriverResp where
  answer : Option String := none
  research : Option (List String) := none
  citations : Option (List String) := none
  error : Option String := none
deriving DecidableEq

/-- Python truthiness of an optional string: `None` and `""` are falsy. -/
def truthyOptStr : Option String → Bool
  | some s => s ≠ ""
  | none => false

/-- Python truthiness of an optional list: `None` and `[]` are falsy. -/
def truthyOptList : Option (List String) → Bool
  | some l => l ≠ []
  | none => false

/-- `"\n".join(xs)` (lines 133 and 136). -/
def joinNL (xs : List String) : String :=
  String.intercalate "\n" xs

/-- The row update of lines 128-136: overwrite `answer` and `datetime` when
the response carries a truthy answer, then `citations` and `research` when
those are truthy. `ts` is the `time.strftime` result at this step. -/
def mergeRow (resp : DriverResp) (ts : String) (q : Row) : Row :=
  let q1 := if truthyOptStr resp.answer then
      { q with answer := resp.answer.getD "", datetime := ts } else q
  let q2 := if truthyOptList resp.citations then
      { q1 with citations := joinNL (resp.citations.getD []) } else q1
  if truthyOptList resp.research then
    { q2 with research := joinNL (resp.research.getD []) } else q2

/-- The state `process_questions` returns, extended with the write snapshots
and the client-invocation trace. -/
structure DriverResult where
  rows : List Row
  apiTimes : List Nat
  processed : Nat
  skipped : Nat
  writes : List (List Row)
  calls : List Nat

/-- The row loop of `process_questions`. `done` holds the rows already
iterated (in order), `todo` the rest; the current row's index is
`done.length`. -/
def processLoop (cfg : RunConfig) (client : Nat → Row → DriverResp)
    (now : Nat → String) (reqTime : Nat → Nat) :
    List Row → List Row → List Nat → Nat → Nat → List (List Row) →
    List Nat → DriverResult
  | done, [], apiTimes, processed, skipped, writes, calls =>
    ⟨done, apiTimes, processed, skipped, writes, calls⟩
  | done, q :: rest, apiTimes, processed, skipped, writes, calls =>
    let i := done.length
    if q.answer ≠ "" then
      processLoop cfg client now reqTime (done ++ [q]) rest apiTimes
        (processed + 1) (skipped + 1) writes calls
    else
      let resp := client i q
      let apiTimes2 := apiTimes ++ [reqTime i]
      let calls2 := calls ++ [i]
      if truthyOptStr resp.error then
        processLoop cfg client now reqTime (done ++ [q]) rest apiTimes2
          (processed + 1) skipped writes calls2
      else
        let q3 := mergeRow resp (now i) q
        let writes2 := if cfg.debug then writes
          else writes ++ [done ++ q3 :: rest]
        processLoop cfg client now reqTime (done ++ [q3]) rest apiTimes2
          (processed + 1) skipped writes2 calls2

/-- `process_questions` over a fresh state. -/
def process_questions (cfg : RunConfig) (client : Nat → Row → DriverResp)
    (now : Nat → String) (reqTime : Nat → Nat) (questions : List Row) :
    DriverResult :=
  processLoop cfg client now reqTime [] questions [] 0 0 [] []

/-! ### Specification-side characterizations of the driver -/

/-- What one row becomes after its iteration: unchanged when skipped or when
the client reports a truthy error, merged otherwise. -/
def finalRow (client : Nat → Row → DriverResp)
    (now : Nat → String) (i : Nat) (q : Row) : Row :=
  if q.answer ≠ "" then q
  else if truthyOptStr (client i q).error then q
  else mergeRow (client i q) (now i) q

/-- The final row list, row by row. -/
def rowsSpec (client : Nat → Row → DriverResp)
    (now : Nat → String) : Nat → List Row → List Row
  | _, [] => []
  | i, q :: rest => finalRow client now i q :: rowsSpec client now (i + 1) rest

/-- Indices of rows that invoke the client: exactly the empty-answer rows. -/
def callsSpec : Nat → List Row → List Nat
  | _, [] => []
  | i, q :: rest =>
    (if q.answer ≠ "" then [] else [i]) ++ callsSpec (i + 1) rest

/-- The recorded latencies: one sample per empty-answer row. -/
def timesSpec (reqTime : Nat → Nat) : Nat → List Row → List Nat
  | _, [] => []
  | i, q :: rest =>
    (if q.answer ≠ "" then [] else [reqTime i]) ++ timesSpec reqTime (i + 1) rest

/-- The write snapshots: the full in-memory row set is written after exactly
those rows that were sent to the client and came back without a truthy
error, and never in debug mode. -/
def writesSpec (cfg : RunConfig) (client : Nat → Row → DriverResp)
    (now : Nat → String) : List Row → List Row → List (List Row)
  | _, [] => []
  | done, q :: rest =>
    let i := done.length
    if q.answer ≠ "" then writesSpec cfg client now (done ++ [q]) rest
    else if truthyOptStr (client i q).error then
      writesSpec cfg client now (done ++ [q]) rest
    else
      let q3 := mergeRow (client i q) (now i) q
      (if cfg.debug then [] else [done ++ q3 :: rest]) ++
        writesSpec cfg client now (done ++ [q3]) rest

/-! ### Remaining pure helpers used by the proofs -/

/-- What one fragment does to the running answer, on the structured view. -/
def ansStep (a : Option Json) (f : SFragment) : Option Json :=
  match f.text with
  | some t => some (Json.str t)
  | none => a

/-- Number of rows the driver counts as skipped: those with a non-empty
answer at the time they are reached (equivalently, in the input, since a
row is only ever modified at its own iteration). -/
def skipCount : List Row → Nat
  | [] => 0
  | q :: rest => (if q.answer ≠ "" then 1 else 0) + skipCount rest

/-- Number of rows that invoke the client: those with an empty answer. -/
def callCount : List Row → Nat
  | [] => 0
  | q :: rest => (if q.answer = "" then 1 else 0) + callCount rest

/-! ### Concrete inputs for witnesses and counterexamples -/

/-- A question dict carrying all four required fields. -/
def qdemo : PyDict :=
  [("qid", "1"), ("question", "hi"), ("answer", ""), ("datetime", "")]

/-- An input row with an empty answer field. -/
def rowEmpty : Row := ⟨"1", "q", "", "", "", ""⟩

/-- An input row that already has an answer. -/
def rowDone : Row := ⟨"2", "p", "answered", "", "", ""⟩

/-- A fragment whose text is exactly the reading marker and which itself
carries one structured result. -/
def cexFrag : SFragment :=
  ⟨some "**Reading:**", some [⟨some ⟨some "u"⟩⟩]⟩

/-- A one-fragment message around `cexFrag`. -/
def cexMsg : SMessage := ⟨some [cexFrag], none⟩

/-- A one-message response around `cexMsg`. -/
def cexResp : SResponse := ⟨[cexMsg]⟩

/-- A client result with an answer, one citation and two research URLs. -/
def respParis : DriverResp :=
  { answer := some "Paris", research := some ["https://b", "https://c"],
    citations := some ["https://a"] }

/-- `rowEmpty` after merging `respParis` at timestamp "ts". -/
def rowParis : Row := ⟨"1", "q", "Paris", "https://b\nhttps://c", "https://a", "ts"⟩

/-- A two-message, two-fragment response exercising last-write-wins and the
reading-context scan. -/
def demoResp : SResponse :=
  ⟨[⟨some [⟨some "partial", none⟩,
      ⟨some "**Reading:** docs", some [⟨some ⟨some "u1"⟩⟩, ⟨none⟩]⟩], none⟩,
    ⟨some [⟨some "final", none⟩], some [⟨some ⟨some "c1"⟩⟩, ⟨some ⟨none⟩⟩, ⟨some ⟨some "c1"⟩⟩]⟩]⟩

/-! ## Proof layer: evaluation of the parse functions on encoded responses -/

theorem okBind {α β : Type} (a : α) (f : α → Except PyErr β) :
    ((Except.ok a : Except PyErr α) >>= f) = f a := rfl

theorem pureOk {α : Type} (a : α) : (pure a : Except PyErr α) = .ok a := rfl

theorem answerScanFragment_enc (acc : Option Json) (f : SFragment) :
    answerScanFragment acc (encodeFragment f) = .ok (ansStep acc f) := by
  rcases f with ⟨t, s⟩
  cases t <;> cases s <;> rfl

theorem answerFold_enc (fs : List SFragment) (acc : Option Json) :
    List.foldlM answerScanFragment acc (fs.map encodeFragment) =
      .ok (fs.foldl ansStep acc) := by
  induction fs generalizing acc with
  | nil => rfl
  | cons f rest ih =>
    simp only [List.map_cons, List.foldlM_cons, answerScanFragment_enc, okBind, pureOk,
      ih, List.foldl_cons]

theorem answerScanMessage_enc (acc : Option Json) (m : SMessage) :
    answerScanMessage acc (encodeMessage m) =
      .ok ((m.fragments.getD []).foldl ansStep acc) := by
  rcases m with ⟨fs, cs⟩
  cases fs with
  | none => cases cs <;> rfl
  | some fs => cases cs <;> exact answerFold_enc fs acc

theorem answerMsgsFold_enc (ms : List SMessage) (acc : Option Json) :
    List.foldlM answerScanMessage acc (ms.map encodeMessage) =
      .ok (ms.foldl (fun a m => (m.fragments.getD []).foldl ansStep a) acc) := by
  induction ms generalizing acc with
  | nil => rfl
  | cons m rest ih =>
    simp only [List.map_cons, List.foldlM_cons, answerScanMessage_enc, okBind, pureOk,
      ih, List.foldl_cons]

theorem parseAnswerBody_enc (r : SResponse) :
    parseAnswerBody (encodeResp r) =
      .ok (r.messages.foldl (fun a m => (m.fragments.getD []).foldl ansStep a) none) :=
  answerMsgsFold_enc r.messages none

theorem foldl_ansStep_filterMap (fs : List SFragment) (a : Option Json) :
    fs.foldl ansStep a =
      (fs.filterMap SFragment.text).foldl (fun _ t => some (Json.str t)) a := by
  induction fs generalizing a with
  | nil => rfl
  | cons f rest ih =>
    cases h : f.text <;> simp [List.foldl_cons, List.filterMap_cons, h, ansStep, ih]

theorem foldl_lastText (ts : List String) (a : Option Json) :
    ts.foldl (fun _ t => some (Json.str t)) a =
      match ts.getLast? with
      | some t => some (Json.str t)
      | none => a := by
  induction ts generalizing a with
  | nil => rfl
  | cons t rest ih =>
    cases rest with
    | nil => rfl
    | cons u rest2 =>
      rw [List.foldl_cons, ih, List.getLast?_cons_cons]
      cases h : (u :: rest2).getLast? with
      | some v => rfl
      | none => simp [List.getLast?_eq_none_iff] at h

theorem foldl_msgs_flatten (ms : List SMessage) (a : Option Json) :
    ms.foldl (fun a m => (m.fragments.getD []).foldl ansStep a) a =
      (ms.flatMap (fun m => m.fragments.getD [])).foldl ansStep a := by
  induction ms generalizing a with
  | nil => rfl
  | cons m rest ih => simp [List.foldl_cons, List.flatMap_cons, List.foldl_append, ih]

theorem parseAnswer_enc (r : SResponse) :
    parseAnswer (some (encodeResp r)) = (lastAnswerText r).map Json.str := by
  have h := parseAnswerBody_enc r
  simp only [parseAnswer, h]
  rw [foldl_msgs_flatten, foldl_ansStep_filterMap, foldl_lastText]
  unfold lastAnswerText allTexts
  rw [← List.filterMap_flatMap]
  cases ((r.messages.flatMap fun m => m.fragments.getD []).filterMap SFragment.text).getLast? <;> rfl

theorem resultScan_enc (urls : List Json) (res : SResult) :
    resultScan urls (encodeResult res) =
      .ok (urls ++ ((resultUrl res).map Json.str).toList) := by
  rcases res with ⟨d⟩
  cases d with
  | none => simp [resultScan, encodeResult, pyContains, resultUrl, okBind, pureOk]
  | some doc =>
    rcases doc with ⟨u⟩
    cases u <;>
      simp [resultScan, encodeResult, encodeDoc, pyContains, Json.subscript,
        lookupLast, resultUrl, okBind, pureOk]

theorem resultsFold_enc (rs : List SResult) (urls : List Json) :
    List.foldlM resultScan urls (rs.map encodeResult) =
      .ok (urls ++ (rs.filterMap resultUrl).map Json.str) := by
  induction rs generalizing urls with
  | nil => simp [List.foldlM_nil]; rfl
  | cons res rest ih =>
    simp only [List.map_cons, List.foldlM_cons, resultScan_enc, okBind, ih,
      List.filterMap_cons]
    cases h : resultUrl res <;> simp [h, List.append_assoc]

theorem researchScanFragment_enc (flag : Bool) (urls : List Json) (f : SFragment) :
    researchScanFragment (flag, urls) (encodeFragment f) =
      .ok (flag || isMarkerFrag f,
        urls ++ (if flag || isMarkerFrag f then (fragUrls f).map Json.str else [])) := by
  rcases f with ⟨t, s⟩
  cases t with
  | none =>
    cases s with
    | none =>
      cases flag <;>
        simp [researchScanFragment, encodeFragment, pyContains, isMarkerFrag,
          fragUrls, okBind, pureOk]
    | some rs =>
      cases flag <;>
        simp [researchScanFragment, encodeFragment, pyContains, Json.subscript,
          lookupLast, pyIter, isMarkerFrag, fragUrls, okBind, pureOk, resultsFold_enc]
  | some tt =>
    cases s with
    | none =>
      cases flag <;> cases hm : strContainsSub tt markerText <;>
        simp [researchScanFragment, encodeFragment, pyContains, Json.subscript,
          lookupLast, isMarkerFrag, fragUrls, hm, okBind, pureOk]
    | some rs =>
      cases flag <;> cases hm : strContainsSub tt markerText <;>
        simp [researchScanFragment, encodeFragment, pyContains, Json.subscript,
          lookupLast, pyIter, isMarkerFrag, fragUrls, hm, okBind, pureOk, resultsFold_enc]

theorem researchFold_enc (fs : List SFragment) (flag : Bool) (urls : List Json) :
    List.foldlM researchScanFragment (flag, urls) (fs.map encodeFragment) =
      .ok (fs.foldl (fun b f => b || isMarkerFrag f) flag,
        urls ++ (scanResearch flag fs).map Json.str) := by
  induction fs generalizing flag urls with
  | nil => simp [List.foldlM_nil, scanResearch]; rfl
  | cons f rest ih =>
    simp only [List.map_cons, List.foldlM_cons, researchScanFragment_enc, okBind, pureOk,
      ih, List.foldl_cons, scanResearch]
    cases hf : flag || isMarkerFrag f <;> simp [hf, List.append_assoc]

theorem researchScanMessage_enc (urls : List Json) (m : SMessage) :
    researchScanMessage urls (encodeMessage m) =
      .ok (urls ++ (scanResearch false (m.fragments.getD [])).map Json.str) := by
  rcases m with ⟨fs, cs⟩
  cases fs with
  | none =>
    cases cs <;>
      simp [researchScanMessage, encodeMessage, pyContains, scanResearch, okBind, pureOk]
  | some fs =>
    cases cs <;>
      simp [researchScanMessage, encodeMessage, pyContains, Json.subscript,
        lookupLast, pyIter, okBind, pureOk, researchFold_enc]

theorem researchMsgsFold_enc (ms : List SMessage) (urls : List Json) :
    List.foldlM researchScanMessage urls (ms.map encodeMessage) =
      .ok (urls ++
        (ms.flatMap (fun m => scanResearch false (m.fragments.getD []))).map Json.str) := by
  induction ms generalizing urls with
  | nil => simp [List.foldlM_nil]; rfl
  | cons m rest ih =>
    simp only [List.map_cons, List.foldlM_cons, researchScanMessage_enc, okBind, pureOk,
      ih, List.flatMap_cons]
    simp [List.append_assoc]

theorem scanResearch_true (fs : List SFragment) :
    scanResearch true fs = fs.flatMap fragUrls := by
  induction fs with
  | nil => rfl
  | cons f rest ih => simp [scanResearch, ih, List.flatMap_cons]

theorem scanResearch_false (fs : List SFragment) :
    scanResearch false fs =
      match firstMarker fs with
      | none => []
      | some k => (fs.drop k).flatMap fragUrls := by
  induction fs with
  | nil => rfl
  | cons f rest ih =>
    cases hm : isMarkerFrag f with
    | true => simp [scanResearch, hm, firstMarker, scanResearch_true, List.flatMap_cons]
    | false =>
      simp only [scanResearch, hm, Bool.false_or, firstMarker, if_neg Bool.false_ne_true]
      rw [ih]
      cases hk : firstMarker rest <;> simp [List.drop_succ_cons]

theorem messageResearchUrls_scan (m : SMessage) :
    messageResearchUrls m = scanResearch false (m.fragments.getD []) := by
  rw [scanResearch_false]
  rfl

theorem parseResearch_enc (r : SResponse) :
    parseResearch (some (encodeResp r)) = some ((researchUrls r).map Json.str) := by
  have h : parseResearchBody (encodeResp r) =
      .ok (([] : List Json) ++
        (r.messages.flatMap (fun m => scanResearch false (m.fragments.getD []))).map Json.str) :=
    researchMsgsFold_enc r.messages []
  simp only [parseResearch, h]
  have hf : (fun m => scanResearch false (m.fragments.getD [])) = messageResearchUrls :=
    funext fun m => (messageResearchUrls_scan m).symm
  rw [List.nil_append, hf, researchUrls]

theorem citationScan_enc (urls : List Json) (c : SCitation) :
    citationScan urls (encodeCitation c) =
      .ok (urls ++ ((citationUrl c).map Json.str).toList) := by
  rcases c with ⟨d⟩
  cases d with
  | none => simp [citationScan, encodeCitation, pyContains, citationUrl, okBind, pureOk]
  | some doc =>
    rcases doc with ⟨u⟩
    cases u <;>
      simp [citationScan, encodeCitation, encodeDoc, pyContains, Json.subscript,
        lookupLast, citationUrl, okBind, pureOk]

theorem citationsFold_enc (cs : List SCitation) (urls : List Json) :
    List.foldlM citationScan urls (cs.map encodeCitation) =
      .ok (urls ++ (cs.filterMap citationUrl).map Json.str) := by
  induction cs generalizing urls with
  | nil => simp [List.foldlM_nil]; rfl
  | cons c rest ih =>
    simp only [List.map_cons, List.foldlM_cons, citationScan_enc, okBind, ih,
      List.filterMap_cons]
    cases h : citationUrl c <;> simp [h, List.append_assoc]

theorem citationScanMessage_enc (urls : List Json) (m : SMessage) :
    citationScanMessage urls (encodeMessage m) =
      .ok (urls ++ ((m.citations.getD []).filterMap citationUrl).map Json.str) := by
  rcases m with ⟨fs, cs⟩
  cases cs with
  | none => cases fs <;> simp [citationScanMessage, encodeMessage, pyContains, okBind, pureOk]
  | some cs =>
    cases fs <;>
      simp [citationScanMessage, encodeMessage, pyContains, Json.subscript,
        lookupLast, pyIter, okBind, pureOk, citationsFold_enc]

theorem citationMsgsFold_enc (ms : List SMessage) (urls : List Json) :
    List.foldlM citationScanMessage urls (ms.map encodeMessage) =
      .ok (urls ++
        (ms.flatMap (fun m => (m.citations.getD []).filterMap citationUrl)).map Json.str) := by
  induction ms generalizing urls with
  | nil => simp [List.foldlM_nil]; rfl
  | cons m rest ih =>
    simp only [List.map_cons, List.foldlM_cons, citationScanMessage_enc, okBind, pureOk,
      ih, List.flatMap_cons]
    simp [List.append_assoc]

theorem parseCitations_enc (r : SResponse) :
    parseCitations (some (encodeResp r)) = some ((citationUrls r).map Json.str) := by
  have h : parseCitationsBody (encodeResp r) =
      .ok (([] : List Json) ++
        (r.messages.flatMap (fun m => (m.citations.getD []).filterMap citationUrl)).map Json.str) :=
    citationMsgsFold_enc r.messages []
  simp only [parseCitations, h]
  simp [citationUrls]

/-! ## Proof layer: the client getAnswer -/

theorem strAppend_ne_empty (a b : String) (ha : 0 < a.length) : a ++ b ≠ "" := by
  intro hc
  have h2 := congrArg String.length hc
  rw [String.length_append] at h2
  have h0 : String.length "" = 0 := rfl
  omega

theorem getAnswer_debug (cfg : RunConfig) (http : HttpOutcome) (q : PyDict)
    (hd : cfg.debug = true) (hq : missingFields q = []) :
    getAnswer cfg http q = .ok ({}, false) := by
  unfold getAnswer
  simp [hq, hd]

theorem getAnswer_status_gt (cfg : RunConfig) (r : HttpResp) (q : PyDict)
    (hq : missingFields q = []) (hd : cfg.debug = false) (hs : 200 < r.status) :
    getAnswer cfg (.ok r) q =
      .ok ({ error := some ("API error - status_code: " ++ toString r.status
        ++ ", response: " ++ r.text) }, true) := by
  unfold getAnswer
  simp [hq, hd, hs]

theorem getAnswer_parses (cfg : RunConfig) (r : HttpResp) (q : PyDict)
    (hq : missingFields q = []) (hd : cfg.debug = false) (hs : r.status ≤ 200)
    (hv : cfg.verbose = false ∨ r.decoded.isSome) :
    getAnswer cfg (.ok r) q =
      .ok ({ answer := parseAnswer r.decoded,
             research := parseResearch r.decoded,
             citations := parseCitations r.decoded }, true) := by
  unfold getAnswer
  have hns : ¬ (r.status > 200) := by omega
  rcases hv with hv | hv
  · simp [hq, hd, hns, hv]
  · rcases Option.isSome_iff_exists.mp hv with ⟨v, hv2⟩
    simp [hq, hd, hns, hv2]

theorem getAnswer_error_ne (cfg : RunConfig) (http : HttpOutcome) (q : PyDict)
    (g : GleanResponse) (b : Bool) (e : String)
    (h : getAnswer cfg http q = .ok (g, b)) (he : g.error = some e) : e ≠ "" := by
  unfold getAnswer at h
  by_cases hq : missingFields q = []
  · rw [if_neg (by simp [hq])] at h
    by_cases hd : cfg.debug
    · rw [if_pos hd] at h
      simp only [Except.ok.injEq, Prod.mk.injEq] at h
      rw [← h.1] at he
      simp at he
    · rw [if_neg hd] at h
      cases http with
      | exn m =>
        dsimp only at h
        simp only [Except.ok.injEq, Prod.mk.injEq] at h
        rw [← h.1] at he
        simp only [GleanResponse.error, Option.some.injEq] at he
        rw [← he]
        exact strAppend_ne_empty _ _ (by decide)
      | ok r =>
        dsimp only at h
        by_cases hs : r.status > 200
        · rw [if_pos hs] at h
          simp only [Except.ok.injEq, Prod.mk.injEq] at h
          rw [← h.1] at he
          simp only [GleanResponse.error, Option.some.injEq] at he
          rw [← he]
          rw [String.append_assoc, String.append_assoc]
          exact strAppend_ne_empty _ _ (by decide)
        · rw [if_neg hs] at h
          by_cases hvn : (cfg.verbose && r.decoded.isNone) = true
          · rw [if_pos hvn] at h
            exact absurd h (by simp)
          · rw [if_neg hvn] at h
            simp only [Except.ok.injEq, Prod.mk.injEq] at h
            rw [← h.1] at he
            simp at he
  · rw [if_pos (by simp [hq])] at h
    simp only [Except.ok.injEq, Prod.mk.injEq] at h
    rw [← h.1] at he
    simp only [GleanResponse.error, Option.some.injEq] at he
    rw [← he]
    exact strAppend_ne_empty _ _ (by decide)

/-! ## Proof layer: the batch driver -/

theorem processLoop_spec (cfg : RunConfig) (client : Nat → Row → DriverResp)
    (now : Nat → String) (reqTime : Nat → Nat) :
    ∀ (todo done : List Row) (apiTimes : List Nat) (processed skipped : Nat)
      (writes : List (List Row)) (calls : List Nat),
    processLoop cfg client now reqTime done todo apiTimes processed skipped writes calls =
      ⟨done ++ rowsSpec client now done.length todo,
       apiTimes ++ timesSpec reqTime done.length todo,
       processed + todo.length,
       skipped + skipCount todo,
       writes ++ writesSpec cfg client now done todo,
       calls ++ callsSpec done.length todo⟩ := by
  intro todo
  induction todo with
  | nil =>
    intro done a p s w c
    simp [processLoop, rowsSpec, timesSpec, skipCount, writesSpec, callsSpec]
  | cons q rest ih =>
    intro done a p s w c
    by_cases hq : q.answer = ""
    · simp only [processLoop, hq, ne_eq, not_true_eq_false, if_false, ite_false]
      by_cases he : truthyOptStr (client done.length q).error = true
      · rw [if_pos he, ih]
        simp only [DriverResult.mk.injEq]
        refine ⟨?_, ?_, ?_, ?_, ?_, ?_⟩
        · simp [rowsSpec, finalRow, hq, he, List.append_assoc]
        · simp [timesSpec, hq, List.append_assoc]
        · simp only [List.length_cons]; omega
        · simp [skipCount, hq]
        · simp [writesSpec, finalRow, hq, he]
        · simp [callsSpec, hq, List.append_assoc]
      · rw [if_neg he, ih]
        simp only [DriverResult.mk.injEq]
        refine ⟨?_, ?_, ?_, ?_, ?_, ?_⟩
        · simp [rowsSpec, finalRow, hq, he, List.append_assoc]
        · simp [timesSpec, hq, List.append_assoc]
        · simp only [List.length_cons]; omega
        · simp [skipCount, hq]
        · cases hdbg : cfg.debug <;>
            simp [writesSpec, finalRow, hq, he, hdbg, List.append_assoc]
        · simp [callsSpec, hq, List.append_assoc]
    · simp only [processLoop, hq, ne_eq, not_false_eq_true, if_true, ite_true]
      rw [ih]
      simp only [DriverResult.mk.injEq]
      refine ⟨?_, ?_, ?_, ?_, ?_, ?_⟩
      · simp [rowsSpec, finalRow, hq, List.append_assoc]
      · simp [timesSpec, hq]
      · simp only [List.length_cons]; omega
      · simp [skipCount, hq]
        omega
      · simp [writesSpec, hq]
      · simp [callsSpec, hq]

theorem process_questions_spec (cfg : RunConfig) (client : Nat → Row → DriverResp)
    (now : Nat → String) (reqTime : Nat → Nat) (questions : List Row) :
    process_questions cfg client now reqTime questions =
      ⟨rowsSpec client now 0 questions,
       timesSpec reqTime 0 questions,
       questions.length,
       skipCount questions,
       writesSpec cfg client now [] questions,
       callsSpec 0 questions⟩ := by
  unfold process_questions
  rw [processLoop_spec]
  simp

theorem finalRow_answered (client : Nat → Row → DriverResp) (now : Nat → String)
    (i : Nat) (q : Row) (h : q.answer ≠ "") : finalRow client now i q = q := by
  simp [finalRow, h]

theorem finalRow_error (client : Nat → Row → DriverResp) (now : Nat → String)
    (i : Nat) (q : Row) (h : truthyOptStr (client i q).error = true) :
    finalRow client now i q = q := by
  by_cases hq : q.answer = "" <;> simp [finalRow, hq, h]

theorem rowsSpec_get (client : Nat → Row → DriverResp) (now : Nat → String) :
    ∀ (todo : List Row) (b k : Nat),
    (rowsSpec client now b todo)[k]? = (todo[k]?).map (finalRow client now (b + k)) := by
  intro todo
  induction todo with
  | nil => intro b k; simp [rowsSpec]
  | cons q rest ih =>
    intro b k
    cases k with
    | zero => simp [rowsSpec]
    | succ k =>
      simp only [rowsSpec, List.getElem?_cons_succ, ih]
      have : b + (k + 1) = (b + 1) + k := by omega
      rw [this]

theorem callsSpec_lower : ∀ (todo : List Row) (b j : Nat),
    j ∈ callsSpec b todo → b ≤ j := by
  intro todo
  induction todo with
  | nil => intro b j h; simp [callsSpec] at h
  | cons q rest ih =>
    intro b j h
    simp only [callsSpec, List.mem_append] at h
    rcases h with h | h
    · by_cases hq : q.answer = "" <;> simp [hq] at h
      omega
    · have := ih (b + 1) j h
      omega

theorem callsSpec_not_mem_answered : ∀ (todo : List Row) (b k : Nat) (q : Row),
    todo[k]? = some q → q.answer ≠ "" → (b + k) ∉ callsSpec b todo := by
  intro todo
  induction todo with
  | nil => intro b k q hk _ _; simp at hk
  | cons q0 rest ih =>
    intro b k q hk ha hm
    simp only [callsSpec, List.mem_append] at hm
    cases k with
    | zero =>
      simp only [List.getElem?_cons_zero, Option.some.injEq] at hk
      subst hk
      rcases hm with hm | hm
      · simp [ha] at hm
      · have := callsSpec_lower rest (b + 1) (b + 0) hm
        omega
    | succ k =>
      simp only [List.getElem?_cons_succ] at hk
      rcases hm with hm | hm
      · by_cases hq : q0.answer = "" <;> simp [hq] at hm
      · have heq : b + (k + 1) = (b + 1) + k := by omega
        rw [heq] at hm
        exact ih (b + 1) k q hk ha hm

theorem callsSpec_count_le_one : ∀ (todo : List Row) (b j : Nat),
    (callsSpec b todo).count j ≤ 1 := by
  intro todo
  induction todo with
  | nil => intro b j; simp [callsSpec]
  | cons q rest ih =>
    intro b j
    simp only [callsSpec, List.count_append]
    by_cases hq : q.answer = ""
    · simp only [hq, ne_eq, not_true_eq_false, if_false, ite_false]
      by_cases hj : j = b
      · have hnm : j ∉ callsSpec (b + 1) rest := by
          intro hm
          have hb := callsSpec_lower rest (b + 1) j hm
          omega
        rw [List.count_eq_zero.mpr hnm, hj]
        simp
      · have h0 : List.count j [b] = 0 := by
          simp [List.count_eq_zero, hj]
        rw [h0]
        simpa using ih (b + 1) j
    · simp only [hq, ne_eq, not_false_eq_true, if_true, ite_true]
      simpa using ih (b + 1) j

theorem timesSpec_length (reqTime : Nat → Nat) : ∀ (todo : List Row) (b : Nat),
    (timesSpec reqTime b todo).length = callCount todo := by
  intro todo
  induction todo with
  | nil => intro b; rfl
  | cons q rest ih =>
    intro b
    by_cases hq : q.answer = "" <;>
      (simp [timesSpec, callCount, hq, ih]; try omega)

theorem writesSpec_mem_shape (cfg : RunConfig) (client : Nat → Row → DriverResp)
    (now : Nat → String) : ∀ (todo done : List Row) (w : List Row),
    w ∈ writesSpec cfg client now done todo →
      (∃ t, w = done ++ t) ∧ w.length = done.length + todo.length := by
  intro todo
  induction todo with
  | nil => intro done w h; simp [writesSpec] at h
  | cons q rest ih =>
    intro done w h
    simp only [writesSpec] at h
    by_cases hq : q.answer = ""
    · simp only [hq, ne_eq, not_true_eq_false, if_false, ite_false] at h
      by_cases he : truthyOptStr (client done.length q).error = true
      · rw [if_pos he] at h
        rcases ih (done ++ [q]) w h with ⟨⟨t, ht⟩, hl⟩
        refine ⟨⟨[q] ++ t, by simp [ht]⟩, ?_⟩
        rw [hl]
        simp only [List.length_append, List.length_cons, List.length_nil]
        omega
      · rw [if_neg he] at h
        rcases List.mem_append.mp h with hm | hm
        · by_cases hdbg : cfg.debug = true <;> simp [hdbg] at hm
          subst hm
          refine ⟨⟨mergeRow (client done.length q) (now done.length) q :: rest, rfl⟩, ?_⟩
          simp only [List.length_append, List.length_cons]
        · rcases ih (done ++ [mergeRow (client done.length q) (now done.length) q]) w hm
            with ⟨⟨t, ht⟩, hl⟩
          refine ⟨⟨mergeRow (client done.length q) (now done.length) q :: t, by simp [ht]⟩, ?_⟩
          rw [hl]
          simp only [List.length_append, List.length_cons, List.length_nil]
          omega
    · simp only [hq, ne_eq, not_false_eq_true, if_true, ite_true] at h
      rcases ih (done ++ [q]) w h with ⟨⟨t, ht⟩, hl⟩
      refine ⟨⟨[q] ++ t, by simp [ht]⟩, ?_⟩
      rw [hl]
      simp only [List.length_append, List.length_cons, List.length_nil]
      omega

/-! ## Claim theorems -/

theorem firstMarker_none (fs : List SFragment)
    (h : ∀ f ∈ fs, isMarkerFrag f = false) : firstMarker fs = none := by
  induction fs with
  | nil => rfl
  | cons f rest ih =>
    simp only [firstMarker, h f (List.mem_cons_self f rest), if_false, ite_false,
      Bool.false_eq_true]
    rw [ih (fun g hg => h g (List.mem_cons_of_mem f hg))]
    rfl

theorem messageResearchUrls_no_marker (m : SMessage)
    (h : ∀ f ∈ m.fragments.getD [], isMarkerFrag f = false) :
    messageResearchUrls m = [] := by
  have hn := firstMarker_none (m.fragments.getD []) h
  simp [messageResearchUrls, hn]

theorem flatMapNilOfAll (l : List SMessage) (f : SMessage → List String)
    (h : ∀ m ∈ l, f m = []) : l.flatMap f = [] := by
  induction l with
  | nil => rfl
  | cons m rest ih =>
    rw [List.flatMap_cons, h m (List.mem_cons_self m rest), List.nil_append]
    exact ih (fun g hg => h g (List.mem_cons_of_mem m hg))

/-- C1: over a well-shaped response body, answer extraction returns the text
of the last fragment carrying a text field, taken across messages and
fragments in original array order (last write wins); when no fragment
carries a text field the result is None. -/
theorem c1_answer_last_write_wins (r : SResponse) :
    parseAnswer (some (encodeResp r)) = (lastAnswerText r).map Json.str :=
  parseAnswer_enc r

/-- C2 (amended): research extraction keeps a per-message reading flag,
initially false, set when a fragment's text contains "**Reading:**" and
never cleared within that message; the result is empty when no fragment
text contains the marker, and otherwise consists exactly of the
structured-result document URLs of fragments at or after the first
marker-bearing fragment of each message — that fragment itself included —
in original fragment order. -/
theorem c2_research_marker_gated (r : SResponse) :
    parseResearch (some (encodeResp r)) = some ((researchUrls r).map Json.str) ∧
      ((∀ m ∈ r.messages, ∀ f ∈ m.fragments.getD [], isMarkerFrag f = false) →
        parseResearch (some (encodeResp r)) = some []) := by
  refine ⟨parseResearch_enc r, fun hnm => ?_⟩
  rw [parseResearch_enc r]
  have h0 : ∀ m ∈ r.messages, messageResearchUrls m = [] := fun m hm =>
    messageResearchUrls_no_marker m (hnm m hm)
  have h1 : researchUrls r = [] := flatMapNilOfAll r.messages messageResearchUrls h0
  rw [h1]
  rfl

/-- C2 witness: a response with no marker anywhere yields the empty research
list. -/
theorem c2_research_marker_gated_witness :
    parseResearch (some (encodeResp ⟨[⟨some [⟨some "plain", some [⟨some ⟨some "z"⟩⟩]⟩], none⟩]⟩)) =
      some [] :=
  (c2_research_marker_gated ⟨[⟨some [⟨some "plain", some [⟨some ⟨some "z"⟩⟩]⟩], none⟩]⟩).2
    (by decide)

/-- C2 counterexample: the marker-bearing fragment itself contributes its
structured-result URL, so the extracted list is not limited to fragments
strictly after the marker: the strict reading predicts [] here, the code
returns the URL. -/
theorem c2_counterexample :
    parseResearch (some (encodeResp cexResp)) = some [Json.str "u"] ∧
      messageResearchStrict cexMsg = [] := ⟨rfl, rfl⟩

/-- C9: citation extraction returns the nested source-document URLs of the
citations that have one, scanning messages and citations in encounter order,
skipping citations without a URL, preserving duplicates. -/
theorem c9_citations_in_order (r : SResponse) :
    parseCitations (some (encodeResp r)) = some ((citationUrls r).map Json.str) :=
  parseCitations_enc r

/-- C10: the marker-bearing fragment contributes its own structured-result
URLs (the flag is set before the structured-results check of the same
iteration), and the reading flag is re-initialized per message, so a marker
in one message never carries into the next. -/
theorem c10_marker_inclusive_and_per_message (t : String) (srs : List SResult)
    (m1 m2 : SMessage) :
    (strContainsSub t markerText = true →
      parseResearch (some (encodeResp ⟨[⟨some [⟨some t, some srs⟩], none⟩]⟩)) =
        some ((srs.filterMap resultUrl).map Json.str)) ∧
    ((∀ f ∈ m2.fragments.getD [], isMarkerFrag f = false) →
      parseResearch (some (encodeResp ⟨[m1, m2]⟩)) =
        parseResearch (some (encodeResp ⟨[m1]⟩))) := by
  constructor
  · intro ht
    rw [parseResearch_enc]
    have h : researchUrls ⟨[⟨some [⟨some t, some srs⟩], none⟩]⟩ =
        srs.filterMap resultUrl := by
      simp [researchUrls, messageResearchUrls, firstMarker, isMarkerFrag, ht, fragUrls]
    rw [h]
  · intro hm
    rw [parseResearch_enc, parseResearch_enc]
    have h2 : messageResearchUrls m2 = [] := messageResearchUrls_no_marker m2 hm
    simp [researchUrls, h2]

/-- C10 witness: concrete marker fragment with its own structured result, and
a markerless second message unaffected by the first message's marker. -/
theorem c10_witness :
    parseResearch (some (encodeResp
        ⟨[⟨some [⟨some "**Reading:** x", some [⟨some ⟨some "w"⟩⟩]⟩], none⟩]⟩)) =
      some [Json.str "w"] ∧
    parseResearch (some (encodeResp
        ⟨[cexMsg, ⟨some [⟨some "plain", some [⟨some ⟨some "z"⟩⟩]⟩], none⟩]⟩)) =
      parseResearch (some (encodeResp ⟨[cexMsg]⟩)) := by
  constructor
  · exact (c10_marker_inclusive_and_per_message "**Reading:** x" [⟨some ⟨some "w"⟩⟩]
      cexMsg cexMsg).1 (by decide)
  · exact (c10_marker_inclusive_and_per_message "x" [] cexMsg
      ⟨some [⟨some "plain", some [⟨some ⟨some "z"⟩⟩]⟩], none⟩).2 (by decide)

/-- C7: each extraction is total: a malformed body yields not-found; any
exception inside the try body is caught within that one function and yields
not-found for that field alone; well-shaped bodies with keys missing at any
depth never reach the exception path; and getAnswer fills the three fields
independently from the same decoded body, so a failed citations extraction
cannot affect the extracted answer. -/
theorem c7_extraction_totality :
    (parseAnswer none = none ∧ parseCitations none = none ∧ parseResearch none = none) ∧
    (∀ r : SResponse, (∃ v, parseAnswerBody (encodeResp r) = .ok v) ∧
      (∃ v, parseCitationsBody (encodeResp r) = .ok v) ∧
      (∃ v, parseResearchBody (encodeResp r) = .ok v)) ∧
    (∀ (j : Json) (e : PyErr),
      (parseAnswerBody j = .error e → parseAnswer (some j) = none) ∧
      (parseCitationsBody j = .error e → parseCitations (some j) = none) ∧
      (parseResearchBody j = .error e → parseResearch (some j) = none)) ∧
    (∀ (cfg : RunConfig) (hr : HttpResp) (q : PyDict) (g : GleanResponse) (b : Bool),
      cfg.debug = false → missingFields q = [] → hr.status ≤ 200 →
      (cfg.verbose = false ∨ hr.decoded.isSome) →
      getAnswer cfg (.ok hr) q = .ok (g, b) →
      g.answer = parseAnswer hr.decoded ∧ g.citations = parseCitations hr.decoded ∧
        g.research = parseResearch hr.decoded) := by
  refine ⟨⟨rfl, rfl, rfl⟩, ?_, ?_, ?_⟩
  · intro r
    exact ⟨⟨_, parseAnswerBody_enc r⟩, ⟨_, citationMsgsFold_enc r.messages []⟩,
      ⟨_, researchMsgsFold_enc r.messages []⟩⟩
  · intro j e
    refine ⟨fun h => ?_, fun h => ?_, fun h => ?_⟩ <;>
      simp [parseAnswer, parseCitations, parseResearch, h]
  · intro cfg hr q g b hd hq hs hv hok
    rw [getAnswer_parses cfg hr q hq hd hs hv] at hok
    simp only [Except.ok.injEq, Prod.mk.injEq] at hok
    rw [← hok.1]
    exact ⟨rfl, rfl, rfl⟩

/-- C7 witness: a non-dict body raises inside each try body and each function
returns not-found; a well-shaped body is parsed with the three fields filled
independently. -/
theorem c7_witness :
    (parseAnswer (some (Json.num 3)) = none ∧
      parseCitations (some (Json.num 3)) = none ∧
      parseResearch (some (Json.num 3)) = none) ∧
    GleanResponse.answer
        { answer := none, research := some [], citations := some [], error := none } =
      parseAnswer (some (Json.obj [])) := by
  have h := c7_extraction_totality.2.2.1 (Json.num 3) PyErr.typeError
  have h2 := c7_extraction_totality.2.2.2 ⟨false, false⟩ ⟨200, "{}", some (Json.obj [])⟩
    qdemo { answer := none, research := some [], citations := some [], error := none }
    true rfl rfl (by decide) (Or.inl rfl) rfl
  exact ⟨⟨h.1 rfl, h.2.1 rfl, h.2.2 rfl⟩, h2.1⟩

/-- C4 (amended): after a completed POST, getAnswer converts the response
into an error result carrying the status code and raw body exactly when the
status code exceeds 200; for every status at most 200 it proceeds to
response parsing; and it returns a result rather than raising whenever
verbose logging is off or the body decodes. -/
theorem c4_status_check (cfg : RunConfig) (r : HttpResp) (q : PyDict)
    (hq : missingFields q = []) (hd : cfg.debug = false) :
    (200 < r.status →
      getAnswer cfg (.ok r) q =
        .ok ({ error := some ("API error - status_code: " ++ toString r.status
          ++ ", response: " ++ r.text) }, true)) ∧
    (r.status ≤ 200 → (cfg.verbose = false ∨ r.decoded.isSome) →
      getAnswer cfg (.ok r) q =
        .ok ({ answer := parseAnswer r.decoded,
               research := parseResearch r.decoded,
               citations := parseCitations r.decoded }, true)) ∧
    ((cfg.verbose = false ∨ r.decoded.isSome) →
      ∃ g b, getAnswer cfg (.ok r) q = .ok (g, b)) := by
  refine ⟨fun hs => getAnswer_status_gt cfg r q hq hd hs,
    fun hs hv => getAnswer_parses cfg r q hq hd hs hv, fun hv => ?_⟩
  by_cases hs : 200 < r.status
  · exact ⟨_, _, getAnswer_status_gt cfg r q hq hd hs⟩
  · exact ⟨_, _, getAnswer_parses cfg r q hq hd (by omega) hv⟩

/-- C4 witness: a 500 response becomes an error result with the status code
and the raw body in the message. -/
theorem c4_witness :
    getAnswer ⟨false, false⟩ (.ok ⟨500, "oops", none⟩) qdemo =
      .ok ({ error := some "API error - status_code: 500, response: oops" }, true) :=
  (c4_status_check ⟨false, false⟩ ⟨500, "oops", none⟩ qdemo rfl rfl).1 (by decide)

/-- C4 counterexample: status 201 lies in the 2xx success class, yet
getAnswer converts it into an error result instead of proceeding to parsing
(the code tests status > 200, not the 2xx class); moreover, with verbose
logging on, a body that is not valid JSON makes getAnswer raise. -/
theorem c4_counterexample :
    getAnswer ⟨false, false⟩ (.ok ⟨201, "created", some (Json.obj [])⟩) qdemo =
      .ok ({ error := some "API error - status_code: 201, response: created" }, true) ∧
    getAnswer ⟨false, true⟩ (.ok ⟨200, "bad", none⟩) qdemo =
      .error "json.loads raised inside verbose response logging" := ⟨rfl, rfl⟩

/-- C3 (amended): the driver rewrites the entire output file with the full
in-memory row set after exactly those rows that were sent to the client and
whose result carried no truthy error, and never in debug mode — skipped rows
and error rows trigger no rewrite; every snapshot written covers the full
row set. -/
theorem c3_writes_after_success (cfg : RunConfig) (client : Nat → Row → DriverResp)
    (now : Nat → String) (reqTime : Nat → Nat) (questions : List Row) :
    (process_questions cfg client now reqTime questions).writes =
      writesSpec cfg client now [] questions ∧
    (∀ w ∈ (process_questions cfg client now reqTime questions).writes,
      w.length = questions.length) := by
  constructor
  · rw [process_questions_spec]
  · intro w hw
    rw [process_questions_spec] at hw
    have h := (writesSpec_mem_shape cfg client now questions [] w hw).2
    simp only [List.length_nil, Nat.zero_add] at h
    exact h

/-- C3 witness: one unanswered row, a successful client result: the single
write snapshot is the merged full row set. -/
theorem c3_witness :
    (process_questions ⟨false, false⟩ (fun _ _ => respParis) (fun _ => "ts")
        (fun _ => 0) [rowEmpty]).writes =
      writesSpec ⟨false, false⟩ (fun _ _ => respParis) (fun _ => "ts") [] [rowEmpty] ∧
    ([rowParis] : List Row).length = 1 := by
  have h := c3_writes_after_success ⟨false, false⟩ (fun _ _ => respParis)
    (fun _ => "ts") (fun _ => 0) [rowEmpty]
  refine ⟨h.1, ?_⟩
  have hm : [rowParis] ∈ (process_questions ⟨false, false⟩ (fun _ _ => respParis)
      (fun _ => "ts") (fun _ => 0) [rowEmpty]).writes := by decide
  exact h.2 [rowParis] hm

/-- C3 counterexample: a run over one already-answered row processes that row
yet performs no file rewrite at all, refuting that every processed row
(answered, skipped, or failed) triggers a rewrite. -/
theorem c3_counterexample :
    (process_questions ⟨false, false⟩ (fun _ _ => {}) (fun _ => "") (fun _ => 0)
        [rowDone]).processed = 1 ∧
    (process_questions ⟨false, false⟩ (fun _ _ => {}) (fun _ => "") (fun _ => 0)
        [rowDone]).writes = [] := ⟨rfl, rfl⟩

/-- C6: a row whose answer field is already non-empty is never sent to the
client, keeps every field unchanged, and is counted as skipped; for a 2-row
input with row 1 answered and row 2 not, one run yields skip-count 1,
processed-count 2, and an unmodified first row in the final rows and in
every written snapshot. -/
theorem c6_skip_answered (cfg : RunConfig) (client : Nat → Row → DriverResp)
    (now : Nat → String) (reqTime : Nat → Nat) :
    (∀ (questions : List Row) (k : Nat) (q : Row), questions[k]? = some q →
      q.answer ≠ "" →
      k ∉ (process_questions cfg client now reqTime questions).calls ∧
      (process_questions cfg client now reqTime questions).rows[k]? = some q) ∧
    (∀ questions : List Row,
      (process_questions cfg client now reqTime questions).skipped = skipCount questions ∧
      (process_questions cfg client now reqTime questions).processed = questions.length) ∧
    (∀ r1 r2 : Row, r1.answer ≠ "" → r2.answer = "" →
      (process_questions cfg client now reqTime [r1, r2]).skipped = 1 ∧
      (process_questions cfg client now reqTime [r1, r2]).processed = 2 ∧
      (process_questions cfg client now reqTime [r1, r2]).rows[0]? = some r1 ∧
      (∀ w ∈ (process_questions cfg client now reqTime [r1, r2]).writes,
        w[0]? = some r1)) := by
  refine ⟨?_, ?_, ?_⟩
  · intro questions k q hk ha
    rw [process_questions_spec]
    constructor
    · have h := callsSpec_not_mem_answered questions 0 k q hk ha
      simpa using h
    · show (rowsSpec client now 0 questions)[k]? = some q
      rw [rowsSpec_get, hk, Option.map_some', Nat.zero_add,
        finalRow_answered client now k q ha]
  · intro questions
    rw [process_questions_spec]
    exact ⟨rfl, rfl⟩
  · intro r1 r2 h1 h2
    rw [process_questions_spec]
    refine ⟨by simp [skipCount, h1, h2], rfl, ?_, ?_⟩
    · show (rowsSpec client now 0 [r1, r2])[0]? = some r1
      rw [rowsSpec_get]
      simp [finalRow_answered client now 0 r1 h1]
    · intro w hw
      have hw2 : w ∈ writesSpec cfg client now [r1] [r2] := by
        simpa [writesSpec, h1] using hw
      rcases (writesSpec_mem_shape cfg client now [r2] [r1] w hw2).1 with ⟨t, ht⟩
      subst ht
      simp

/-- C6 witness: the two-row instance at concrete rows. -/
theorem c6_witness :
    0 ∉ (process_questions ⟨false, false⟩ (fun _ _ => {}) (fun _ => "")
        (fun _ => 0) [rowDone, rowEmpty]).calls ∧
    (process_questions ⟨false, false⟩ (fun _ _ => {}) (fun _ => "")
        (fun _ => 0) [rowDone, rowEmpty]).skipped = 1 ∧
    (process_questions ⟨false, false⟩ (fun _ _ => {}) (fun _ => "")
        (fun _ => 0) [rowDone, rowEmpty]).processed = 2 ∧
    (process_questions ⟨false, false⟩ (fun _ _ => {}) (fun _ => "")
        (fun _ => 0) [rowDone, rowEmpty]).rows[0]? = some rowDone := by
  have h := c6_skip_answered ⟨false, false⟩ (fun _ _ => {}) (fun _ => "") (fun _ => 0)
  have h3 := h.2.2 rowDone rowEmpty (by decide) rfl
  have h1 := h.1 [rowDone, rowEmpty] 0 rowDone rfl (by decide)
  exact ⟨h1.1, h3.1, h3.2.1, h3.2.2.1⟩

/-- C5: when the client reports an error for a row — an error a getAnswer
call can actually produce — the row keeps exactly its pre-call state (answer,
citations, research, datetime all unchanged), and no in-run retry occurs:
the row's index enters the call trace at most once. -/
theorem c5_error_leaves_row (cfg : RunConfig) (client : Nat → Row → DriverResp)
    (now : Nat → String) (reqTime : Nat → Nat) (questions : List Row)
    (k : Nat) (q : Row) (hk : questions[k]? = some q)
    (cfg2 : RunConfig) (http : HttpOutcome) (qd : PyDict)
    (g : GleanResponse) (b : Bool) (e : String)
    (hga : getAnswer cfg2 http qd = .ok (g, b)) (hge : g.error = some e)
    (hce : (client k q).error = some e) :
    (process_questions cfg client now reqTime questions).rows[k]? = some q ∧
    (process_questions cfg client now reqTime questions).calls.count k ≤ 1 := by
  have hne : e ≠ "" := getAnswer_error_ne cfg2 http qd g b e hga hge
  constructor
  · rw [process_questions_spec]
    show (rowsSpec client now 0 questions)[k]? = some q
    rw [rowsSpec_get, hk, Option.map_some', Nat.zero_add]
    by_cases hq : q.answer = ""
    · have htr : truthyOptStr (client k q).error = true := by
        rw [hce]
        simp [truthyOptStr, hne]
      rw [finalRow_error client now k q htr]
    · rw [finalRow_answered client now k q hq]
  · rw [process_questions_spec]
    exact callsSpec_count_le_one questions 0 k

/-- C5 witness: a concrete 500-status error result leaves the concrete row
untouched. -/
theorem c5_witness :
    (process_questions ⟨false, false⟩
        (fun _ _ => { error := some "API error - status_code: 500, response: oops" })
        (fun _ => "") (fun _ => 0) [rowEmpty]).rows[0]? = some rowEmpty ∧
    (process_questions ⟨false, false⟩
        (fun _ _ => { error := some "API error - status_code: 500, response: oops" })
        (fun _ => "") (fun _ => 0) [rowEmpty]).calls.count 0 ≤ 1 :=
  c5_error_leaves_row ⟨false, false⟩
    (fun _ _ => { error := some "API error - status_code: 500, response: oops" })
    (fun _ => "") (fun _ => 0) [rowEmpty] 0 rowEmpty rfl
    ⟨false, false⟩ (.ok ⟨500, "oops", none⟩) qdemo
    { error := some "API error - status_code: 500, response: oops" } true
    "API error - status_code: 500, response: oops" rfl rfl rfl

/-- C8 (amended): a latency sample is appended for exactly those rows whose
processing invoked the client — the rows with an empty answer field —
whether or not a network call occurred; in debug mode the client skips the
network call and returns an empty successful result, yet such rows still
record a latency sample. -/
theorem c8_latency_per_client_call (cfg : RunConfig) (client : Nat → Row → DriverResp)
    (now : Nat → String) (reqTime : Nat → Nat) (questions : List Row) :
    (process_questions cfg client now reqTime questions).apiTimes.length =
      callCount questions ∧
    (∀ (cfg2 : RunConfig) (http : HttpOutcome) (q : PyDict),
      cfg2.debug = true → missingFields q = [] →
      getAnswer cfg2 http q = .ok ({}, false)) := by
  constructor
  · rw [process_questions_spec]
    exact timesSpec_length reqTime questions 0
  · intro cfg2 http q hd hq
    exact getAnswer_debug cfg2 http q hd hq

/-- C8 witness: a two-row run records one latency sample (for the one
unanswered row), and a debug-mode client call returns the empty result
without posting. -/
theorem c8_witness :
    (process_questions ⟨true, false⟩ (fun _ _ => {}) (fun _ => "") (fun _ => 0)
        [rowEmpty, rowDone]).apiTimes.length = callCount [rowEmpty, rowDone] ∧
    getAnswer ⟨true, false⟩ (.exn "e") qdemo = .ok ({}, false) := by
  have h := c8_latency_per_client_call ⟨true, false⟩ (fun _ _ => {}) (fun _ => "")
    (fun _ => 0) [rowEmpty, rowDone]
  exact ⟨h.1, h.2 ⟨true, false⟩ (.exn "e") qdemo rfl rfl⟩

/-- C8 counterexample: in debug mode the client performs no network call (the
posted flag is false and the result is the empty successful response), yet
the driver still appends a latency sample for the row, so samples are not
recorded only for rows that triggered a network call. -/
theorem c8_counterexample :
    (process_questions ⟨true, false⟩ (fun _ _ => {}) (fun _ => "") (fun _ => 0)
        [rowEmpty]).apiTimes.length = 1 ∧
    getAnswer ⟨true, false⟩ (.exn "unused") qdemo = .ok ({}, false) := ⟨rfl, rfl⟩
